import Mathlib

/-!
Verification of the queue fill/assignment subsystem of
src/backend/django/core/util.py (SMART annotation platform).

The Python module is shallowly embedded: the database tables touched by the
subsystem (Data, Queue, DataQueue, AssignedData, the labelers relation) and
the Redis lists become fields of an explicit `DB` state record, and every
function of util.py that the claims mention becomes a pure Lean function on
that state.  Randomness (random.shuffle, random.randint) is modelled by an
injected stream `rand : Nat -> Nat` of raw draws; random.randint(0, i) with
a negative bound raises ValueError exactly as in Python, which matters for
fill_queue's except-ValueError fallback.
-/

namespace SmartUtil

/-- ValueError raised inside `iter_sample`: either the explicit
"Sample larger than population." raise, or the ValueError that
random.randint(0, i) raises when i is negative (empty range). -/
inductive ValueError where
  | samplePopulation
  | emptyRandRange
deriving DecidableEq

/-- Model of Python's random.shuffle on the sampler's buffer: repeatedly draw
an index from the rand stream and move that element to the front, recursing on
the rest.  Fuel-based structural recursion (fuel is initially the list length,
so the fuel-0 branch is unreachable); the result is a permutation of the
input driven by the stream. -/
def shuffleGo (rand : Nat → Nat) : Nat → Nat → List α → List α
  | _, _, [] => []
  | 0, _, l => l
  | fuel + 1, c, x :: xs =>
      let j := rand c % (x :: xs).length
      (x :: xs).getD j x :: shuffleGo rand fuel (c + 1) ((x :: xs).eraseIdx j)

/-- random.shuffle entry point: permute the whole list. -/
def shuffleList (rand : Nat → Nat) (c : Nat) (l : List α) : List α :=
  shuffleGo rand l.length c l

/-- The second loop of iter_sample: `for i, v in enumerate(iterator, sample_len)`.
For each remaining item v at (Int-valued) index i, Python draws
r = random.randint(0, i) — which raises ValueError when i < 0 — and
overwrites results[r] with v when r < sample_len. -/
def iterSampleLoop (rand : Nat → Nat) (sample_len : Int) :
    List α → Int → Nat → List α → Except ValueError (List α)
  | [], _, _, results => .ok results
  | v :: rest, i, c, results =>
      if i < 0 then
        .error .emptyRandRange
      else
        let r : Nat := rand c % (i.toNat + 1)
        iterSampleLoop rand sample_len rest (i + 1) (c + 1)
          (if (r : Int) < sample_len then results.set r v else results)

/-- iter_sample(iterable, sample_len): take the first sample_len items
(raising ValueError "Sample larger than population." if the iterable runs
out first), random.shuffle them, then at a decreasing rate replace random
items with later ones.  sample_len is an Int because fill_queue passes
queue.length - current_queue_len, which can be negative. -/
def iter_sample (rand : Nat → Nat) (iterable : List α) (sample_len : Int) :
    Except ValueError (List α) :=
  if (iterable.length : Int) < sample_len then
    .error .samplePopulation
  else
    let results := shuffleList rand 0 (iterable.take sample_len.toNat)
    iterSampleLoop rand sample_len (iterable.drop sample_len.toNat) sample_len
      iterable.length results

/-- Modelled from the spec: core/models.py is not in the source tree; per the
spec's data model a Data item is a unit of work with text content belonging to
exactly one Project.  Primary keys and project ids are opaque, modelled as Nat. -/
structure Datum where
  pk : Nat
  text : String
  project : Nat
deriving DecidableEq

/-- Modelled from the spec: a Queue belongs to a Project, has a target
length (capacity), and is optionally bound to a single user. -/
structure QueueRec where
  pk : Nat
  project : Nat
  length : Nat
  user : Option Nat
deriving DecidableEq

/-- Modelled from the spec: a QueueStore membership row (DataQueue) links one
Queue to one Data item. -/
structure DataQueueRow where
  queue : Nat
  data : Nat
deriving DecidableEq

/-- Modelled from the spec: an AssignedData row links a Data item, a User and
the Queue it was popped from.  The data field is an Option because
assign_datum in util.py calls AssignedData.objects.create with the result of
pop_queue, which can be None. -/
structure AssignedDataRow where
  data : Option Nat
  user : Nat
  queue : Nat
deriving DecidableEq

/-- Modelled from the spec: one row of the Data-labelers relation — the datum
has been labeled by that labeler.  Data with a row here is excluded by
fill_queue's labelers=None filter. -/
structure LabelRow where
  data : Nat
  labeler : Nat
deriving DecidableEq

/-- The mutable state the subsystem touches: the relational tables (lists of
rows, kept in insertion / primary-key order, so first() is head?) and the
Redis lists keyed by queue pk (head of the list is the Redis left end). -/
structure DB where
  data : List Datum
  queues : List QueueRec
  dataQueue : List DataQueueRow
  assigned : List AssignedDataRow
  labels : List LabelRow
  redis : Nat → List Nat

/-- Count of a queue's membership rows: queue.data.count() and the
Count('data') annotation both count DataQueue rows for the queue. -/
def queue_data_count (db : DB) (qpk : Nat) : Nat :=
  (db.dataQueue.filter (fun r => r.queue == qpk)).length

/-- The queryset Data.objects.filter(project=..., labelers=None, queues=None):
data of the project with no labeler row and no queue membership row.
Note the filter has no condition on AssignedData. -/
def eligible_data (db : DB) (project : Nat) : List Datum :=
  db.data.filter (fun d =>
    d.project == project
    && db.labels.all (fun lr => lr.data != d.pk)
    && db.dataQueue.all (fun r => r.data != d.pk))

/-- fill_queue(queue): sample queue.length - current_queue_len items from the
eligible data; on ValueError fall back to the entire eligible queryset; then
bulk-create a DataQueue row per selected item.  No Redis write happens here. -/
def fill_queue (rand : Nat → Nat) (db : DB) (q : QueueRec) : DB :=
  let current_queue_len := queue_data_count db q.pk
  let elig := eligible_data db q.project
  let queue_data :=
    match iter_sample rand elig ((q.length : Int) - (current_queue_len : Int)) with
    | .ok sample => sample
    | .error _ => elig
  { db with dataQueue := db.dataQueue ++ queue_data.map (fun d => ⟨q.pk, d.pk⟩) }

/-- Redis LPUSH key id1 id2 ... idn: each id is pushed onto the left end in
argument order, so the last argument ends leftmost. -/
def lpush (redis : Nat → List Nat) (key : Nat) (ids : List Nat) : Nat → List Nat :=
  fun k => if k = key then ids.reverse ++ redis key else redis k

/-- One iteration of init_redis_queues' loop: collect the queue's membership
data ids and lpush them, skipping the push when there are none
(lpush with no values would error). -/
def initRedisStep (acc : DB) (q : QueueRec) : DB :=
  let data_ids := (acc.dataQueue.filter (fun r => r.queue == q.pk)).map (fun r => r.data)
  if data_ids.length > 0 then
    { acc with redis := lpush acc.redis q.pk data_ids }
  else
    acc

/-- init_redis_queues(): for each queue in the database, push the ids of the
data linked to the queue onto the queue's Redis list. -/
def init_redis_queues (db : DB) : DB :=
  db.queues.foldl initRedisStep db

/-- pop_queue(queue): RPOP the queue's Redis list first (the atomic step);
on None return None and change nothing; otherwise look the datum up by pk
(first(), which can be None for a dangling id), delete the matching
DataQueue rows, and return the datum. -/
def pop_queue (db : DB) (q : QueueRec) : Option Datum × DB :=
  match (db.redis q.pk).getLast? with
  | none => (none, db)
  | some data_id =>
      let db1 : DB :=
        { db with redis := fun k => if k = q.pk then (db.redis q.pk).dropLast else db.redis k }
      let data_obj := db.data.find? (fun d => d.pk == data_id)
      let db2 : DB :=
        { db1 with dataQueue := db1.dataQueue.filter (fun r =>
            !(r.queue == q.pk && (match data_obj with
                                  | some d => r.data == d.pk
                                  | none => false))) }
      (data_obj, db2)

/-- get_nonempty_queue(project, user=None): when a user is given, first look
among the project's queues bound to that user whose annotated data count is
positive; otherwise (or when none is nonempty) look among the project's
shared (user=None) queues with a positive data count; first() in default
table order either way.  Emptiness is decided from DataQueue counts, never
from Redis. -/
def get_nonempty_queue (db : DB) (project : Nat) (user : Option Nat) : Option QueueRec :=
  let fromUser : Option QueueRec :=
    match user with
    | none => none
    | some u =>
        (db.queues.filter (fun q =>
          q.project == project && q.user == some u
            && queue_data_count db q.pk != 0)).head?
  match fromUser with
  | some q => some q
  | none =>
      (db.queues.filter (fun q =>
        q.project == project && q.user == none
          && queue_data_count db q.pk != 0)).head?

/-- assign_datum(user, project): select a queue via get_nonempty_queue; on
None return None; otherwise pop the queue and unconditionally create an
AssignedData row for whatever pop_queue returned (possibly None), then
return it. -/
def assign_datum (db : DB) (user : Nat) (project : Nat) : Option Datum × DB :=
  match get_nonempty_queue db project (some user) with
  | none => (none, db)
  | some q =>
      let popped := pop_queue db q
      let db2 : DB :=
        { popped.2 with assigned := popped.2.assigned ++ [⟨popped.1.map Datum.pk, user, q.pk⟩] }
      (popped.1, db2)

/-- A fixed rand stream for concrete evaluations. -/
def rand0 : Nat → Nat := fun _ => 0

/-- Concrete state for C1: one eligible datum, one empty shared queue of
capacity 1, all Redis lists empty. -/
def dbC1 : DB :=
  { data := [⟨1, "a", 0⟩], queues := [⟨10, 0, 1, none⟩], dataQueue := [],
    assigned := [], labels := [], redis := fun _ => [] }

/-- The queue of dbC1. -/
def qC1 : QueueRec := ⟨10, 0, 1, none⟩

/-- Concrete state for C2: datum 1 is unlabeled and in no queue but has an
active AssignedData row (user 5, popped from queue 99); queue 10 is empty
with capacity 1. -/
def dbC2 : DB :=
  { data := [⟨1, "a", 0⟩], queues := [⟨10, 0, 1, none⟩], dataQueue := [],
    assigned := [⟨some 1, 5, 99⟩], labels := [], redis := fun _ => [] }

/-- The queue of dbC2. -/
def qC2 : QueueRec := ⟨10, 0, 1, none⟩

/-- Concrete state for C3: queue 10 has a membership row for datum 1 but its
Redis list is empty, so get_nonempty_queue selects it and pop_queue returns
None. -/
def dbC3 : DB :=
  { data := [⟨1, "a", 0⟩], queues := [⟨10, 0, 5, none⟩], dataQueue := [⟨10, 1⟩],
    assigned := [], labels := [], redis := fun _ => [] }

/-- Concrete state for C4: queue 10 has capacity 1 but already two membership
rows, and datum 3 is still eligible. -/
def dbC4 : DB :=
  { data := [⟨1, "a", 0⟩, ⟨2, "b", 0⟩, ⟨3, "c", 0⟩], queues := [⟨10, 0, 1, none⟩],
    dataQueue := [⟨10, 1⟩, ⟨10, 2⟩], assigned := [], labels := [],
    redis := fun _ => [] }

/-- The queue of dbC4. -/
def qC4 : QueueRec := ⟨10, 0, 1, none⟩

/-- Concrete state with membership count equal to capacity and one eligible
datum remaining (datum 2). -/
def dbFull : DB :=
  { data := [⟨1, "a", 0⟩, ⟨2, "b", 0⟩], queues := [⟨10, 0, 1, none⟩],
    dataQueue := [⟨10, 1⟩], assigned := [], labels := [], redis := fun _ => [] }

/-- The queue of dbFull. -/
def qFull : QueueRec := ⟨10, 0, 1, none⟩

/-- Concrete state for C5: queue 10 has a membership row but an empty Redis
list; queue 20 has no membership rows but a nonempty Redis list. -/
def dbC5 : DB :=
  { data := [⟨1, "a", 0⟩, ⟨2, "b", 0⟩], queues := [⟨10, 0, 3, none⟩, ⟨20, 0, 3, none⟩],
    dataQueue := [⟨10, 1⟩], assigned := [], labels := [],
    redis := fun k => if k = 20 then [2] else [] }

/-- Concrete state for C7: one eligible datum, queue 10 empty with capacity 3,
so the eligible population (1) is smaller than the shortfall (3). -/
def dbC7 : DB :=
  { data := [⟨1, "a", 0⟩], queues := [⟨10, 0, 3, none⟩], dataQueue := [],
    assigned := [], labels := [], redis := fun _ => [] }

/-- The queue of dbC7. -/
def qC7 : QueueRec := ⟨10, 0, 3, none⟩

/-- Concrete state for C8: queue 10 is bound to user 1 and queue 20 is shared;
both have one membership row and a matching nonempty Redis list. -/
def dbC8 : DB :=
  { data := [⟨1, "a", 0⟩, ⟨2, "b", 0⟩], queues := [⟨10, 0, 3, some 1⟩, ⟨20, 0, 3, none⟩],
    dataQueue := [⟨10, 1⟩, ⟨20, 2⟩], assigned := [], labels := [],
    redis := fun k => if k = 10 then [1] else if k = 20 then [2] else [] }

/-- Concrete state for C9: the project's only queue has no membership rows. -/
def dbC9 : DB :=
  { data := [], queues := [⟨10, 0, 3, none⟩], dataQueue := [],
    assigned := [], labels := [], redis := fun _ => [] }

/-- Shuffling never changes the number of elements. -/
theorem shuffleGo_length (rand : Nat → Nat) :
    ∀ (fuel c : Nat) (l : List α), (shuffleGo rand fuel c l).length = l.length
  | 0, _, [] => rfl
  | 0, _, _ :: _ => rfl
  | _ + 1, _, [] => rfl
  | fuel + 1, c, x :: xs => by
      simp only [shuffleGo, List.length_cons]
      rw [shuffleGo_length rand fuel (c + 1)]
      have hj : rand c % (xs.length + 1) < (x :: xs).length :=
        Nat.mod_lt _ (Nat.succ_pos _)
      rw [List.length_eraseIdx_of_lt hj]
      simp

/-- Every element of a shuffled list occurs in the original list. -/
theorem shuffleGo_subset (rand : Nat → Nat) :
    ∀ (fuel c : Nat) (l : List α) (a : α), a ∈ shuffleGo rand fuel c l → a ∈ l
  | 0, _, [], _, h => h
  | 0, _, _ :: _, _, h => h
  | _ + 1, _, [], _, h => h
  | fuel + 1, c, x :: xs, a, h => by
      simp only [shuffleGo, List.mem_cons] at h
      rcases h with h | h
      · subst h
        rw [List.getD_eq_getElem?_getD]
        cases hg : (x :: xs)[rand c % (x :: xs).length]? with
        | none => simp [hg]
        | some b => simpa [hg] using List.getElem?_mem hg
      · exact List.eraseIdx_subset _ _
          (shuffleGo_subset rand fuel (c + 1) ((x :: xs).eraseIdx _) a h)

/-- The replacement loop never fails once the running index is nonnegative,
preserves the buffer length, and only ever writes items of the remaining
stream into the buffer. -/
theorem iterSampleLoop_ok (rand : Nat → Nat) (k : Int) :
    ∀ (rest : List α) (i : Int) (c : Nat) (results : List α), 0 ≤ i →
      ∃ l, iterSampleLoop rand k rest i c results = .ok l ∧
        l.length = results.length ∧ ∀ x ∈ l, x ∈ results ∨ x ∈ rest
  | [], _, _, results, _ =>
      ⟨results, rfl, rfl, fun _ hx => Or.inl hx⟩
  | v :: rest, i, c, results, hi => by
      obtain ⟨l, hl, hlen, hmem⟩ :=
        iterSampleLoop_ok rand k rest (i + 1) (c + 1)
          (if ((rand c % (i.toNat + 1) : Nat) : Int) < k then
            results.set (rand c % (i.toNat + 1)) v else results)
          (by omega)
      refine ⟨l, ?_, ?_, ?_⟩
      · simp only [iterSampleLoop, if_neg (Int.not_lt.mpr hi)]
        exact hl
      · rw [hlen]; split <;> simp
      · intro x hx
        rcases hmem x hx with hx' | hx'
        · split at hx'
          · rcases List.mem_or_eq_of_mem_set hx' with h | h
            · exact Or.inl h
            · exact Or.inr (by simp [h])
          · exact Or.inl hx'
        · exact Or.inr (List.mem_cons_of_mem _ hx')

/-- With a nonpositive target the replacement condition r < sample_len never
holds, so the loop returns the buffer unchanged. -/
theorem iterSampleLoop_nonpos (rand : Nat → Nat) (k : Int) (hk : k ≤ 0) :
    ∀ (rest : List α) (i : Int) (c : Nat) (results : List α), 0 ≤ i →
      iterSampleLoop rand k rest i c results = .ok results
  | [], _, _, _, _ => rfl
  | v :: rest, i, c, results, hi => by
      have hr : ¬ (((rand c % (i.toNat + 1) : Nat) : Int) < k) := by
        have : (0 : Int) ≤ ((rand c % (i.toNat + 1) : Nat) : Int) := Int.natCast_nonneg _
        omega
      simp only [iterSampleLoop, if_neg (Int.not_lt.mpr hi), if_neg hr]
      exact iterSampleLoop_nonpos rand k hk rest (i + 1) (c + 1) results (by omega)

/-- With an index that is still negative and at least one remaining item, the
loop raises the randint empty-range ValueError. -/
theorem iterSampleLoop_neg (rand : Nat → Nat) (k : Int) (v : α) (rest : List α)
    (i : Int) (c : Nat) (results : List α) (hi : i < 0) :
    iterSampleLoop rand k (v :: rest) i c results = .error .emptyRandRange := by
  simp only [iterSampleLoop, if_pos hi]

/-- Sampling zero items from any iterable succeeds with the empty list. -/
theorem iter_sample_zero (rand : Nat → Nat) (xs : List α) :
    iter_sample rand xs 0 = .ok [] := by
  have h : ¬ ((xs.length : Int) < 0) := Int.not_lt.mpr (Int.natCast_nonneg _)
  simp only [iter_sample, if_neg h, Int.toNat_zero, List.take_zero, List.drop_zero]
  have hsh : shuffleList rand 0 ([] : List α) = [] := rfl
  rw [hsh]
  exact iterSampleLoop_nonpos rand 0 le_rfl xs 0 xs.length [] le_rfl

/-- Sampling a negative number of items from a nonempty iterable raises the
randint ValueError (caught by fill_queue like any other ValueError). -/
theorem iter_sample_neg (rand : Nat → Nat) (xs : List α) (k : Int)
    (hk : k < 0) (hxs : xs ≠ []) :
    iter_sample rand xs k = .error .emptyRandRange := by
  have h : ¬ ((xs.length : Int) < k) := by
    have : (0 : Int) ≤ (xs.length : Int) := Int.natCast_nonneg _
    omega
  have hk0 : k.toNat = 0 := by omega
  simp only [iter_sample, if_neg h, hk0, List.take_zero, List.drop_zero]
  have hsh : shuffleList rand 0 ([] : List α) = [] := rfl
  rw [hsh]
  cases xs with
  | nil => exact absurd rfl hxs
  | cons v rest => exact iterSampleLoop_neg rand k v rest k (v :: rest).length [] hk

/-- With a nonnegative target not larger than the population, iter_sample
succeeds with exactly sample_len items, all drawn from the input. -/
theorem iter_sample_ok (rand : Nat → Nat) (xs : List α) (k : Int)
    (hk : 0 ≤ k) (hlen : ¬ ((xs.length : Int) < k)) :
    ∃ l, iter_sample rand xs k = .ok l ∧ (l.length : Int) = k ∧
      ∀ x ∈ l, x ∈ xs := by
  have htake : (xs.take k.toNat).length = k.toNat := by
    simp only [List.length_take]
    omega
  have hshlen : (shuffleList rand 0 (xs.take k.toNat)).length = k.toNat := by
    rw [shuffleList, shuffleGo_length, htake]
  obtain ⟨l, hl, hlen2, hmem⟩ :=
    iterSampleLoop_ok rand k (xs.drop k.toNat) k xs.length
      (shuffleList rand 0 (xs.take k.toNat)) hk
  refine ⟨l, ?_, ?_, ?_⟩
  · simp only [iter_sample, if_neg hlen]
    exact hl
  · rw [hlen2, hshlen]; omega
  · intro x hx
    rcases hmem x hx with hx' | hx'
    · exact List.take_subset _ _ (shuffleGo_subset rand _ _ _ x hx')
    · exact List.drop_subset _ _ hx'

/-- fill_queue never touches the Redis lists. -/
theorem fill_queue_redis (rand : Nat → Nat) (db : DB) (q : QueueRec) :
    (fill_queue rand db q).redis = db.redis := rfl

/-- fill_queue never touches the queue table. -/
theorem fill_queue_queues (rand : Nat → Nat) (db : DB) (q : QueueRec) :
    (fill_queue rand db q).queues = db.queues := rfl

/-- When the membership count already equals the capacity, the sample size is
zero, iter_sample returns the empty list, and fill_queue changes nothing. -/
theorem fill_queue_noop (rand : Nat → Nat) (db : DB) (q : QueueRec)
    (h : queue_data_count db q.pk = q.length) :
    fill_queue rand db q = db := by
  simp only [fill_queue, h, sub_self, iter_sample_zero, List.map_nil,
    List.append_nil]

/-- When the membership count strictly exceeds the capacity and eligible data
remains, the negative sample size makes iter_sample raise ValueError, and the
fallback bulk-creates a membership row for every eligible datum. -/
theorem fill_queue_overfull (rand : Nat → Nat) (db : DB) (q : QueueRec)
    (h : q.length < queue_data_count db q.pk)
    (he : eligible_data db q.project ≠ []) :
    (fill_queue rand db q).dataQueue =
      db.dataQueue ++ (eligible_data db q.project).map (fun d => ⟨q.pk, d.pk⟩) := by
  have hneg : ((q.length : Int) - (queue_data_count db q.pk : Int)) < 0 := by omega
  simp only [fill_queue, iter_sample_neg rand _ _ hneg he]

/-- When the eligible population is strictly smaller than the shortfall,
iter_sample raises "Sample larger than population." and the fallback
bulk-creates a membership row for every eligible datum. -/
theorem fill_queue_insufficient (rand : Nat → Nat) (db : DB) (q : QueueRec)
    (h : ((eligible_data db q.project).length : Int) <
          (q.length : Int) - (queue_data_count db q.pk : Int)) :
    (fill_queue rand db q).dataQueue =
      db.dataQueue ++ (eligible_data db q.project).map (fun d => ⟨q.pk, d.pk⟩) := by
  have herr : iter_sample rand (eligible_data db q.project)
      ((q.length : Int) - (queue_data_count db q.pk : Int)) =
      .error .samplePopulation := by
    simp only [iter_sample, if_pos h]
  simp only [fill_queue, herr]

/-- Membership rows created by fill_queue for the queue itself add exactly
the number of selected items to the queue's count. -/
theorem queue_data_count_append_own (db : DB) (q : QueueRec) (sel : List Datum) :
    (List.filter (fun r => r.queue == q.pk)
        (db.dataQueue ++ sel.map (fun d => (⟨q.pk, d.pk⟩ : DataQueueRow)))).length =
      queue_data_count db q.pk + sel.length := by
  rw [List.filter_append, List.length_append, queue_data_count]
  congr 1
  rw [List.filter_map]
  have : (List.filter ((fun r => r.queue == q.pk) ∘ fun d => (⟨q.pk, d.pk⟩ : DataQueueRow)) sel) = sel := by
    rw [List.filter_eq_self]
    intro a _
    simp
  rw [this, List.length_map]

/-- initRedisStep only changes the Redis field. -/
theorem initRedisStep_dataQueue (acc : DB) (q : QueueRec) :
    (initRedisStep acc q).dataQueue = acc.dataQueue := by
  simp only [initRedisStep]
  split <;> rfl

/-- initRedisStep leaves the queue table unchanged. -/
theorem initRedisStep_queues (acc : DB) (q : QueueRec) :
    (initRedisStep acc q).queues = acc.queues := by
  simp only [initRedisStep]
  split <;> rfl

/-- The init_redis_queues fold leaves the membership table unchanged. -/
theorem foldl_initRedisStep_dataQueue :
    ∀ (qs : List QueueRec) (acc : DB),
      (List.foldl initRedisStep acc qs).dataQueue = acc.dataQueue
  | [], _ => rfl
  | q :: qs, acc => by
      rw [List.foldl_cons, foldl_initRedisStep_dataQueue qs, initRedisStep_dataQueue]

/-- initRedisStep does not touch Redis keys other than the queue's pk. -/
theorem initRedisStep_redis_ne (acc : DB) (q : QueueRec) (k : Nat)
    (h : k ≠ q.pk) : (initRedisStep acc q).redis k = acc.redis k := by
  simp only [initRedisStep]
  split
  · simp [lpush, h]
  · rfl

/-- The init_redis_queues fold does not touch Redis keys belonging to none of
the processed queues. -/
theorem foldl_initRedisStep_redis_notmem :
    ∀ (qs : List QueueRec) (acc : DB) (k : Nat), k ∉ qs.map QueueRec.pk →
      (List.foldl initRedisStep acc qs).redis k = acc.redis k
  | [], _, _, _ => rfl
  | q :: qs, acc, k, h => by
      have h1 : k ∉ qs.map QueueRec.pk := fun hm => h (by simp [hm])
      have h2 : k ≠ q.pk := fun he => h (by simp [he])
      rw [List.foldl_cons, foldl_initRedisStep_redis_notmem qs _ k h1,
        initRedisStep_redis_ne acc q k h2]

/-- Starting from empty Redis lists and pairwise-distinct queue pks, the
init_redis_queues fold leaves each queue's Redis list holding exactly the
queue's membership data ids (pushed left, hence reversed). -/
theorem foldl_initRedisStep_redis_mem :
    ∀ (qs : List QueueRec) (acc : DB), (qs.map QueueRec.pk).Nodup →
      (∀ q ∈ qs, acc.redis q.pk = []) → ∀ q ∈ qs,
      (List.foldl initRedisStep acc qs).redis q.pk =
        ((acc.dataQueue.filter (fun r => r.queue == q.pk)).map
          (fun r => r.data)).reverse
  | [], _, _, _, q, hq => absurd hq (List.not_mem_nil q)
  | q0 :: qs, acc, hnd, hemp, q, hq => by
      have hnotin : q0.pk ∉ qs.map QueueRec.pk := by
        rw [List.map_cons, List.nodup_cons] at hnd
        exact hnd.1
      have hnd' : (qs.map QueueRec.pk).Nodup := by
        rw [List.map_cons, List.nodup_cons] at hnd
        exact hnd.2
      rw [List.foldl_cons]
      rcases List.mem_cons.mp hq with hq' | hq'
      · subst hq'
        rw [foldl_initRedisStep_redis_notmem qs _ q.pk hnotin]
        have hacc : acc.redis q.pk = [] := hemp q (List.mem_cons_self _ _)
        simp only [initRedisStep]
        split
        · simp [lpush, hacc]
        · rename_i hlen
          have hnil : ((acc.dataQueue.filter (fun r => r.queue == q.pk)).map
              (fun r => r.data)) = [] := by
            rw [← List.length_eq_zero]
            omega
          rw [hacc, hnil]
          rfl
      · have hemp' : ∀ q' ∈ qs, (initRedisStep acc q0).redis q'.pk = [] := by
          intro q' hq''
          have hne : q'.pk ≠ q0.pk := by
            intro he
            exact hnotin (he ▸ List.mem_map_of_mem QueueRec.pk hq'')
          rw [initRedisStep_redis_ne acc q0 q'.pk hne]
          exact hemp q' (List.mem_cons_of_mem _ hq'')
        rw [foldl_initRedisStep_redis_mem qs _ hnd' hemp' q hq',
          initRedisStep_dataQueue]

/-- C6: the reservoir sampler fails with the InsufficientPopulation signal
(the "Sample larger than population." ValueError) exactly when the input
sequence yields fewer than sample_len items; otherwise it returns a sequence
of exactly sample_len items, each of which occurs in the input. -/
theorem c6_sampler_error_exactly_on_short_input (rand : Nat → Nat)
    (xs : List α) (k : Int) (hk : 0 ≤ k) :
    (iter_sample rand xs k = .error .samplePopulation ↔ (xs.length : Int) < k) ∧
    (∀ e, iter_sample rand xs k = .error e → e = .samplePopulation) ∧
    (∀ l, iter_sample rand xs k = .ok l → (l.length : Int) = k ∧ ∀ x ∈ l, x ∈ xs) := by
  by_cases h : (xs.length : Int) < k
  · have herr : iter_sample rand xs k = .error .samplePopulation := by
      simp only [iter_sample, if_pos h]
    refine ⟨⟨fun _ => h, fun _ => herr⟩, ?_, ?_⟩
    · intro e he
      rw [herr] at he
      injection he with he'
      exact he'.symm
    · intro l hl
      rw [herr] at hl
      exact absurd hl (by simp)
  · obtain ⟨l, hl, hlen, hmem⟩ := iter_sample_ok rand xs k hk h
    refine ⟨⟨fun he => ?_, fun hlt => absurd hlt h⟩, ?_, ?_⟩
    · rw [hl] at he
      exact absurd he (by simp)
    · intro e he
      rw [hl] at he
      exact absurd he (by simp)
    · intro l' hl'
      rw [hl] at hl'
      injection hl' with hl''
      subst hl''
      exact ⟨hlen, hmem⟩

/-- Witness for C6 at rand0, input [5, 6, 7] and sample size 2. -/
theorem c6_witness :
    (0 : Int) ≤ 2 ∧
      ∀ l, iter_sample rand0 [5, 6, 7] 2 = .ok l →
        (l.length : Int) = 2 ∧ ∀ x ∈ l, x ∈ [5, 6, 7] :=
  ⟨by decide,
   (c6_sampler_error_exactly_on_short_input rand0 [5, 6, 7] 2 (by decide)).2.2⟩

/-- C7: when the eligible population of the queue's project is smaller than
the shortfall queue.length - current count, fill_queue falls back to the
entire eligible population: every eligible datum receives a membership row,
the resulting count stays under capacity, and no error escapes (fill_queue
is a total function into DB). -/
theorem c7_insufficient_population_take_all (rand : Nat → Nat) (db : DB)
    (q : QueueRec)
    (h : ((eligible_data db q.project).length : Int) <
          (q.length : Int) - (queue_data_count db q.pk : Int)) :
    (fill_queue rand db q).dataQueue =
      db.dataQueue ++ (eligible_data db q.project).map (fun d => ⟨q.pk, d.pk⟩) ∧
    queue_data_count (fill_queue rand db q) q.pk =
      queue_data_count db q.pk + (eligible_data db q.project).length ∧
    queue_data_count (fill_queue rand db q) q.pk < q.length := by
  have h1 := fill_queue_insufficient rand db q h
  have h2 : queue_data_count (fill_queue rand db q) q.pk =
      queue_data_count db q.pk + (eligible_data db q.project).length := by
    rw [queue_data_count, h1, queue_data_count_append_own]
  exact ⟨h1, h2, by omega⟩

/-- Witness for C7 at dbC7: one eligible datum, capacity 3, empty queue. -/
theorem c7_witness :
    (((eligible_data dbC7 qC7.project).length : Int) <
        (qC7.length : Int) - (queue_data_count dbC7 qC7.pk : Int)) ∧
      queue_data_count (fill_queue rand0 dbC7 qC7) qC7.pk < qC7.length :=
  ⟨by decide, (c7_insufficient_population_take_all rand0 dbC7 qC7 (by decide)).2.2⟩

/-- C4 counterexample: queue 10 of dbC4 has capacity 1 but membership count 2
(remaining is negative), yet fill_queue is not a no-op — it adds a membership
row for the remaining eligible datum 3. -/
theorem c4_counterexample :
    qC4.length ≤ queue_data_count dbC4 qC4.pk ∧
      (fill_queue rand0 dbC4 qC4).dataQueue = [⟨10, 1⟩, ⟨10, 2⟩, ⟨10, 3⟩] ∧
      (fill_queue rand0 dbC4 qC4).dataQueue ≠ dbC4.dataQueue := by decide

/-- C4 (amended): fill_queue is a no-op exactly in the remaining = 0 case —
when the membership count equals the target length; when the count strictly
exceeds the length and eligible data exists, the negative sample size makes
random.randint raise ValueError and fill_queue instead adds the entire
eligible population. -/
theorem c4_exact_capacity_noop (rand : Nat → Nat) (db : DB) (q : QueueRec) :
    (queue_data_count db q.pk = q.length → fill_queue rand db q = db) ∧
    (q.length < queue_data_count db q.pk → eligible_data db q.project ≠ [] →
      (fill_queue rand db q).dataQueue =
        db.dataQueue ++ (eligible_data db q.project).map (fun d => ⟨q.pk, d.pk⟩)) :=
  ⟨fill_queue_noop rand db q, fill_queue_overfull rand db q⟩

/-- Witness for the amended C4 at dbFull (count = capacity, no-op) and at
dbC4 (count above capacity, whole eligible population added). -/
theorem c4_witness :
    (queue_data_count dbFull qFull.pk = qFull.length ∧
      fill_queue rand0 dbFull qFull = dbFull) ∧
    (qC4.length < queue_data_count dbC4 qC4.pk ∧
      (fill_queue rand0 dbC4 qC4).dataQueue =
        dbC4.dataQueue ++
          (eligible_data dbC4 qC4.project).map (fun d => ⟨qC4.pk, d.pk⟩)) :=
  ⟨⟨by decide, (c4_exact_capacity_noop rand0 dbFull qFull).1 (by decide)⟩,
   ⟨by decide, (c4_exact_capacity_noop rand0 dbC4 qC4).2 (by decide) (by decide)⟩⟩

/-- C10: sampling with target 0 returns the empty sequence without error for
every iterable, including the empty one; consequently fill_queue on a queue
whose membership count equals its length creates no membership rows even
when eligible data remains. -/
theorem c10_zero_sample_empty_and_full_queue_noop (rand : Nat → Nat) :
    (∀ (α : Type) (xs : List α), iter_sample rand xs 0 = .ok []) ∧
    (∀ (db : DB) (q : QueueRec), queue_data_count db q.pk = q.length →
      (fill_queue rand db q).dataQueue = db.dataQueue) := by
  refine ⟨fun α xs => iter_sample_zero rand xs, fun db q h => ?_⟩
  rw [fill_queue_noop rand db q h]

/-- Witness for C10 at the empty iterable and at dbFull, where eligible data
(datum 2) remains but the membership count equals the capacity. -/
theorem c10_witness :
    iter_sample rand0 ([] : List Nat) 0 = .ok [] ∧
      queue_data_count dbFull qFull.pk = qFull.length ∧
      eligible_data dbFull qFull.project ≠ [] ∧
      (fill_queue rand0 dbFull qFull).dataQueue = dbFull.dataQueue :=
  ⟨(c10_zero_sample_empty_and_full_queue_noop rand0).1 Nat [],
   by decide, by decide,
   (c10_zero_sample_empty_and_full_queue_noop rand0).2 dbFull qFull (by decide)⟩

/-- C1 counterexample: starting from dbC1 (empty queue 10 of capacity 1, one
eligible datum, all Redis lists empty), fill_queue creates the membership row
(10, 1) but pushes nothing onto the queue's Redis list, so right after
fill_queue the membership set {1} differs from the FastQueue set {}. -/
theorem c1_counterexample :
    (fill_queue rand0 dbC1 qC1).dataQueue = [⟨10, 1⟩] ∧
      (fill_queue rand0 dbC1 qC1).redis 10 = [] ∧
      ¬ ((1 : Nat) ∈ (fill_queue rand0 dbC1 qC1).redis 10) := by decide

/-- C1 (amended): fill_queue creates a membership row per selected item but
does not itself push onto the FastQueue; the FastQueue is populated
separately by init_redis_queues.  After fill_queue followed by
init_redis_queues, starting from empty Redis lists and distinct queue pks,
every queue's FastQueue contents and membership rows are identical sets. -/
theorem c1_fill_then_init_sets_equal (rand : Nat → Nat) (db : DB)
    (q0 : QueueRec) (hnd : (db.queues.map QueueRec.pk).Nodup)
    (hr : ∀ k, db.redis k = []) :
    ∀ q ∈ db.queues, ∀ x : Nat,
      x ∈ (init_redis_queues (fill_queue rand db q0)).redis q.pk ↔
        ∃ r ∈ (init_redis_queues (fill_queue rand db q0)).dataQueue,
          r.queue = q.pk ∧ r.data = x := by
  intro q hq x
  have hq1 : (fill_queue rand db q0).queues = db.queues := rfl
  have hr1 : ∀ q' ∈ (fill_queue rand db q0).queues,
      (fill_queue rand db q0).redis q'.pk = [] := by
    intro q' _
    rw [fill_queue_redis]
    exact hr q'.pk
  have hmain := foldl_initRedisStep_redis_mem (fill_queue rand db q0).queues
      (fill_queue rand db q0) (by rw [hq1]; exact hnd) hr1 q (by rw [hq1]; exact hq)
  simp only [init_redis_queues]
  rw [hmain, foldl_initRedisStep_dataQueue]
  simp only [List.mem_reverse, List.mem_map, List.mem_filter, beq_iff_eq]
  constructor
  · rintro ⟨r, ⟨hr', hqueue⟩, hdata⟩
    exact ⟨r, hr', hqueue, hdata⟩
  · rintro ⟨r, hr', hqueue, hdata⟩
    exact ⟨r, ⟨hr', hqueue⟩, hdata⟩

/-- Witness for the amended C1 at dbC1: after fill_queue plus
init_redis_queues the id 1 is in queue 10's FastQueue exactly as it is in
the membership rows. -/
theorem c1_witness :
    (dbC1.queues.map QueueRec.pk).Nodup ∧
      ((1 : Nat) ∈ (init_redis_queues (fill_queue rand0 dbC1 qC1)).redis qC1.pk ↔
        ∃ r ∈ (init_redis_queues (fill_queue rand0 dbC1 qC1)).dataQueue,
          r.queue = qC1.pk ∧ r.data = 1) :=
  ⟨by decide,
   c1_fill_then_init_sets_equal rand0 dbC1 qC1 (by decide) (fun _ => rfl)
     qC1 (by decide) 1⟩

/-- C2: the code contradicts fill_queue's own docstring ("Fill a queue with
unlabeled, unassigned data"): the eligibility filter has no condition on
AssignedData, so datum 1 of dbC2 — which has an active AssignedData row and
is unlabeled and unqueued — is selected by fill_queue and added to queue
10's membership. -/
theorem c2_assigned_datum_requeued :
    dbC2.assigned = [⟨some 1, 5, 99⟩] ∧
      dbC2.labels = [] ∧
      (fill_queue rand0 dbC2 qC2).dataQueue = [⟨10, 1⟩] := by decide

/-- C3: the code contradicts the no-work contract: in dbC3 queue 10 has a
membership row but an empty Redis list, so get_nonempty_queue selects it,
pop_queue returns None (the empty sentinel, not an exception), and
assign_datum does return None without retrying — but it still executes
AssignedData.objects.create, recording an assignment with a null datum. -/
theorem c3_assignment_created_on_empty_pop :
    (assign_datum dbC3 7 0).1 = none ∧
      (assign_datum dbC3 7 0).2.assigned = [⟨none, 7, 10⟩] ∧
      dbC3.assigned = [] := by decide

/-- An element produced by first() on a filtered queryset belongs to the
underlying list and satisfies the filter. -/
theorem head?_filter_spec {α : Type} {p : α → Bool} {l : List α} {a : α}
    (h : (l.filter p).head? = some a) : a ∈ l ∧ p a = true :=
  List.mem_filter.mp (List.mem_of_mem_head? (Option.mem_def.mpr h))

/-- C5 counterexample: in dbC5, queue 10 has a membership row but an empty
Redis list while queue 20 has an empty membership but the nonempty Redis
list [2]; get_nonempty_queue nevertheless selects queue 10, so emptiness is
decided from QueueStore membership counts, not from the FastQueue. -/
theorem c5_counterexample :
    get_nonempty_queue dbC5 0 none = some ⟨10, 0, 3, none⟩ ∧
      dbC5.redis 10 = [] ∧
      dbC5.redis 20 = [2] ∧
      queue_data_count dbC5 20 = 0 := by decide

/-- C5 (amended): queue selection decides nonemptiness from QueueStore
membership counts — the Redis field is never consulted (replacing it does
not change the result), every selected queue has a positive membership
count, belongs to the project, and personal queues of the given user are
preferred, with shared queues only when every personal queue of that user
has membership count zero. -/
theorem c5_selection_counts_not_fastqueue (db : DB) (project : Nat)
    (uo : Option Nat) :
    (∀ f, get_nonempty_queue { db with redis := f } project uo =
        get_nonempty_queue db project uo) ∧
    (∀ q, get_nonempty_queue db project uo = some q →
      q ∈ db.queues ∧ q.project = project ∧ queue_data_count db q.pk ≠ 0 ∧
        (uo = none → q.user = none) ∧
        (∀ u, uo = some u →
          (q.user = some u ∨
            (q.user = none ∧ ∀ q' ∈ db.queues, q'.project = project →
              q'.user = some u → queue_data_count db q'.pk = 0)))) := by
  refine ⟨fun f => rfl, fun q h => ?_⟩
  cases uo with
  | none =>
      simp only [get_nonempty_queue] at h
      obtain ⟨hmem, hp⟩ := head?_filter_spec h
      simp only [Bool.and_eq_true, beq_iff_eq, bne_iff_ne] at hp
      exact ⟨hmem, hp.1.1, hp.2, fun _ => hp.1.2, fun u hu => Option.noConfusion hu⟩
  | some u0 =>
      simp only [get_nonempty_queue] at h
      cases hfu : (db.queues.filter (fun q => q.project == project
          && q.user == some u0 && queue_data_count db q.pk != 0)).head? with
      | some q1 =>
          rw [hfu] at h
          injection h with h'
          subst h'
          obtain ⟨hmem, hp⟩ := head?_filter_spec hfu
          simp only [Bool.and_eq_true, beq_iff_eq, bne_iff_ne] at hp
          refine ⟨hmem, hp.1.1, hp.2, fun hn => Option.noConfusion hn, ?_⟩
          intro u hu
          injection hu with hu'
          subst hu'
          exact Or.inl hp.1.2
      | none =>
          rw [hfu] at h
          obtain ⟨hmem, hp⟩ := head?_filter_spec h
          simp only [Bool.and_eq_true, beq_iff_eq, bne_iff_ne] at hp
          have hnone : ∀ q' ∈ db.queues, q'.project = project →
              q'.user = some u0 → queue_data_count db q'.pk = 0 := by
            intro q' hq' hproj' huser'
            have hnil := List.head?_eq_none_iff.mp hfu
            rw [List.filter_eq_nil_iff] at hnil
            have := hnil q' hq'
            by_contra hc
            exact this (by simp [hproj', huser', hc])
          refine ⟨hmem, hp.1.1, hp.2, fun hn => Option.noConfusion hn, ?_⟩
          intro u hu
          injection hu with hu'
          subst hu'
          exact Or.inr ⟨hp.1.2, hnone⟩

/-- Witness for the amended C5 at dbC5: the Redis-replacement identity and
the selected queue's properties at the concrete selection. -/
theorem c5_witness :
    get_nonempty_queue dbC5 0 none = some ⟨10, 0, 3, none⟩ ∧
      queue_data_count dbC5 (10 : Nat) ≠ 0 :=
  ⟨by decide,
   ((c5_selection_counts_not_fastqueue dbC5 0 none).2 ⟨10, 0, 3, none⟩
     (by decide)).2.2.1⟩

/-- C8: when some personal queue of the user in the project is nonempty (and
the state is consistent: membership counts agree with Redis nonemptiness and
Redis ids refer to existing data), assign_datum selects a queue bound to the
user — never a shared one — and returns a datum popped from that personal
queue's FastQueue. -/
theorem c8_personal_queue_preferred (db : DB) (u project : Nat)
    (hcons : ∀ q ∈ db.queues, (queue_data_count db q.pk ≠ 0 ↔ db.redis q.pk ≠ []))
    (hids : ∀ q ∈ db.queues, ∀ id ∈ db.redis q.pk, ∃ d ∈ db.data, d.pk = id)
    (hex : ∃ q ∈ db.queues, q.project = project ∧ q.user = some u ∧
            queue_data_count db q.pk ≠ 0) :
    ∃ q, get_nonempty_queue db project (some u) = some q ∧ q ∈ db.queues ∧
      q.user = some u ∧ q.project = project ∧
      ∃ d, (assign_datum db u project).1 = some d ∧ d.pk ∈ db.redis q.pk := by
  obtain ⟨qe, hqe, hprojE, huserE, hcountE⟩ := hex
  cases hfil : db.queues.filter (fun q => q.project == project
      && q.user == some u && queue_data_count db q.pk != 0) with
  | nil =>
      exfalso
      have hmem : qe ∈ db.queues.filter (fun q => q.project == project
          && q.user == some u && queue_data_count db q.pk != 0) :=
        List.mem_filter.mpr ⟨hqe, by simp [hprojE, huserE, hcountE]⟩
      rw [hfil] at hmem
      exact List.not_mem_nil qe hmem
  | cons q1 t =>
      have hq1f : q1 ∈ db.queues.filter (fun q => q.project == project
          && q.user == some u && queue_data_count db q.pk != 0) := by
        rw [hfil]
        exact List.mem_cons_self _ _
      obtain ⟨hq1, hp1⟩ := List.mem_filter.mp hq1f
      simp only [Bool.and_eq_true, beq_iff_eq, bne_iff_ne] at hp1
      have hget : get_nonempty_queue db project (some u) = some q1 := by
        simp only [get_nonempty_queue, hfil, List.head?_cons]
      have hredis : db.redis q1.pk ≠ [] := (hcons q1 hq1).mp hp1.2
      obtain ⟨id, hlast⟩ : ∃ id, (db.redis q1.pk).getLast? = some id := by
        cases hg : (db.redis q1.pk).getLast? with
        | none => exact absurd (List.getLast?_eq_none_iff.mp hg) hredis
        | some id => exact ⟨id, rfl⟩
      have hidmem : id ∈ db.redis q1.pk := List.mem_of_getLast?_eq_some hlast
      obtain ⟨d0, hd0, hd0pk⟩ := hids q1 hq1 id hidmem
      have hfsome : (db.data.find? (fun d => d.pk == id)).isSome :=
        List.find?_isSome.mpr ⟨d0, hd0, by simp [hd0pk]⟩
      obtain ⟨d, hfind⟩ := Option.isSome_iff_exists.mp hfsome
      have hdpk : d.pk = id := by
        have hpd := List.find?_some hfind
        simpa using hpd
      have hpop : (pop_queue db q1).1 = some d := by
        simp only [pop_queue, hlast, hfind]
      refine ⟨q1, hget, hq1, hp1.1.2, hp1.1.1, d, ?_, hdpk ▸ hidmem⟩
      simp only [assign_datum, hget]
      exact hpop

/-- Witness for C8 at dbC8: user 1 owns nonempty queue 10, the shared queue
20 is also nonempty, and assign_datum returns the datum from queue 10. -/
theorem c8_witness :
    (∃ q ∈ dbC8.queues, q.project = 0 ∧ q.user = some 1 ∧
        queue_data_count dbC8 q.pk ≠ 0) ∧
      ∃ q, get_nonempty_queue dbC8 0 (some 1) = some q ∧ q ∈ dbC8.queues ∧
        q.user = some 1 ∧ q.project = 0 ∧
        ∃ d, (assign_datum dbC8 1 0).1 = some d ∧ d.pk ∈ dbC8.redis q.pk :=
  ⟨by decide,
   c8_personal_queue_preferred dbC8 1 0 (by decide) (by decide) (by decide)⟩

/-- C9: on a project whose queues (if any) all have membership count zero,
assign_datum returns None and leaves the whole state — in particular the
AssignedData table — unchanged, raising no error. -/
theorem c9_all_queues_empty_returns_none (db : DB) (u project : Nat)
    (h : ∀ q ∈ db.queues, q.project = project → queue_data_count db q.pk = 0) :
    assign_datum db u project = (none, db) := by
  have hfil1 : db.queues.filter (fun q => q.project == project
      && q.user == some u && queue_data_count db q.pk != 0) = [] := by
    rw [List.filter_eq_nil_iff]
    intro q hq
    simp only [Bool.and_eq_true, beq_iff_eq, bne_iff_ne]
    intro hc
    exact hc.2 (h q hq hc.1.1)
  have hfil2 : db.queues.filter (fun q => q.project == project
      && q.user == none && queue_data_count db q.pk != 0) = [] := by
    rw [List.filter_eq_nil_iff]
    intro q hq
    simp only [Bool.and_eq_true, beq_iff_eq, bne_iff_ne]
    intro hc
    exact hc.2 (h q hq hc.1.1)
  simp only [assign_datum, get_nonempty_queue, hfil1, hfil2, List.head?_nil]

/-- Witness for C9 at dbC9: one shared queue with no membership rows. -/
theorem c9_witness :
    (∀ q ∈ dbC9.queues, q.project = 0 → queue_data_count dbC9 q.pk = 0) ∧
      assign_datum dbC9 7 0 = (none, dbC9) :=
  ⟨by decide, c9_all_queues_empty_returns_none dbC9 7 0 (by decide)⟩

end SmartUtil
